import Mathlib

/-!
Verification of the batch-splitting / batch-execution / result-collection pipeline of
`plugins/modules/database/mssql/mssql_script.py`.

Python strings are modelled as `List Char`. The module's splitter is the single call
`script.split('\nGO\n')` (line 244): Python `str.split(sep)` cuts the string at every
non-overlapping occurrence of `sep`, scanning left to right, keeps every piece (also
empty ones), and `''.split(sep) == ['']`.
-/

/-- Separator substring used by the module: a newline, the two characters `GO`, and a
newline, exactly as in `script.split('\nGO\n')`. -/
def GOsep : List Char := ['\n', 'G', 'O', '\n']

/-- Fuel-indexed worker for Python `str.split('\nGO\n')` on `List Char`. Each step
consumes at least one character, so fuel equal to the length of the string (supplied by
`splitGO`) makes the fuel-exhaustion branch unreachable. A cut happens exactly where the
remaining text starts with the four separator characters, and scanning resumes after the
separator (non-overlapping, leftmost-first, like Python). -/
def pySplitF : Nat → List Char → List (List Char)
  | _, [] => [[]]
  | 0, s => [s]
  | fuel + 1, c :: rest =>
    if (c :: rest).take 4 = GOsep then
      [] :: pySplitF fuel (rest.drop 3)
    else
      match pySplitF fuel rest with
      | [] => [[c]]
      | b :: bs => (c :: b) :: bs

/-- Embedding of line 244, `queries = script.split('\nGO\n')`. -/
def splitGO (s : List Char) : List (List Char) := pySplitF s.length s

/-- Fuel-indexed count of non-overlapping occurrences of the separator, scanning left to
right exactly as `pySplitF` does (Python `script.count('\nGO\n')`). -/
def countGOF : Nat → List Char → Nat
  | _, [] => 0
  | 0, _ => 0
  | fuel + 1, c :: rest =>
    if (c :: rest).take 4 = GOsep then
      countGOF fuel (rest.drop 3) + 1
    else
      countGOF fuel rest

/-- Number of separator occurrences in a script. -/
def countGO (s : List Char) : Nat := countGOF s.length s

/-- Rejoin batches, reinserting the separator as a separator line between consecutive
batches (the inverse direction of the split). -/
def joinGO : List (List Char) → List Char
  | [] => []
  | [b] => b
  | b :: b2 :: bs => b ++ GOsep ++ joinGO (b2 :: bs)

theorem pySplitF_ne_nil (fuel : Nat) : ∀ s : List Char, pySplitF fuel s ≠ [] := by
  induction fuel with
  | zero =>
    intro s
    cases s <;> simp [pySplitF]
  | succ fuel ih =>
    intro s
    cases s with
    | nil => simp [pySplitF]
    | cons c rest =>
      by_cases h : (c :: rest).take 4 = GOsep
      · simp [pySplitF, h]
      · simp only [pySplitF, if_neg h]
        cases hrec : pySplitF fuel rest with
        | nil => simp
        | cons b bs => simp

theorem length_pySplitF (fuel : Nat) :
    ∀ s : List Char, (pySplitF fuel s).length = countGOF fuel s + 1 := by
  induction fuel with
  | zero =>
    intro s
    cases s <;> simp [pySplitF, countGOF]
  | succ fuel ih =>
    intro s
    cases s with
    | nil => simp [pySplitF, countGOF]
    | cons c rest =>
      by_cases h : (c :: rest).take 4 = GOsep
      · simp [pySplitF, countGOF, h, ih]
      · simp only [pySplitF, countGOF, if_neg h]
        cases hrec : pySplitF fuel rest with
        | nil => exact absurd hrec (pySplitF_ne_nil fuel rest)
        | cons b bs =>
          have := ih rest
          rw [hrec] at this
          simpa using this

theorem joinGO_cons_cons (c : Char) (b : List Char) (bs : List (List Char)) :
    joinGO ((c :: b) :: bs) = c :: joinGO (b :: bs) := by
  cases bs <;> simp [joinGO]

theorem take_eq_GOsep {c : Char} {rest : List Char}
    (h : (c :: rest).take 4 = GOsep) : GOsep ++ rest.drop 3 = c :: rest := by
  calc GOsep ++ rest.drop 3
      = (c :: rest).take 4 ++ (c :: rest).drop 4 := by rw [h]; rfl
    _ = c :: rest := List.take_append_drop 4 (c :: rest)

theorem joinGO_pySplitF (fuel : Nat) :
    ∀ s : List Char, joinGO (pySplitF fuel s) = s := by
  induction fuel with
  | zero =>
    intro s
    cases s <;> simp [pySplitF, joinGO]
  | succ fuel ih =>
    intro s
    cases s with
    | nil => simp [pySplitF, joinGO]
    | cons c rest =>
      by_cases h : (c :: rest).take 4 = GOsep
      · simp only [pySplitF, if_pos h]
        obtain ⟨b, bs, hbs⟩ := List.exists_cons_of_ne_nil (pySplitF_ne_nil fuel (rest.drop 3))
        rw [hbs]
        have hih := ih (rest.drop 3)
        rw [hbs] at hih
        simp only [joinGO]
        rw [hih]
        exact take_eq_GOsep h
      · simp only [pySplitF, if_neg h]
        cases hrec : pySplitF fuel rest with
        | nil => exact absurd hrec (pySplitF_ne_nil fuel rest)
        | cons b bs =>
          have hih := ih rest
          rw [hrec] at hih
          rw [joinGO_cons_cons, hih]

/-- C1: for every script string, splitting on the separator yields exactly `N + 1`
batches when the script contains `N` (non-overlapping) separator occurrences, and
rejoining the batches with the separator reinserted gives back the script — so the
batches appear in original order and none is dropped, not even an empty one. -/
theorem splitGO_count_and_order (s : List Char) :
    (splitGO s).length = countGO s + 1 ∧ joinGO (splitGO s) = s :=
  ⟨length_pySplitF s.length s, joinGO_pySplitF s.length s⟩

/-- C5: split followed by rejoin (separator reinserted as separator lines between
consecutive batches) reproduces the original script exactly. -/
theorem splitGO_roundtrip (s : List Char) : joinGO (splitGO s) = s :=
  joinGO_pySplitF s.length s

/-- C9: the splitter recognizes only the exact substring newline-`GO`-newline. A `GO`
on the first line (no preceding newline), a `GO` on the last line without a trailing
newline, a `GO` line with a trailing space, and a `GO` line ending in a carriage return
are all kept verbatim inside a single batch, while an exact separator line does split. -/
theorem splitGO_exact_match_only :
    splitGO ['G', 'O', '\n', 'x'] = [['G', 'O', '\n', 'x']] ∧
    splitGO ['x', '\n', 'G', 'O'] = [['x', '\n', 'G', 'O']] ∧
    splitGO ['x', '\n', 'G', 'O', ' ', '\n', 'y'] = [['x', '\n', 'G', 'O', ' ', '\n', 'y']] ∧
    splitGO ['x', '\n', 'G', 'O', '\r', '\n', 'y'] = [['x', '\n', 'G', 'O', '\r', '\n', 'y']] ∧
    splitGO ['x', '\n', 'G', 'O', '\n', 'y'] = [['x'], ['y']] := by
  decide

/-!
Executor model. The module runs each batch in order on the open cursor
(lines 251-260), collecting `fetchall()` results in a while-loop until an empty row
list comes back, and on any exception calls
`fail_json(msg="query failed", query=query, error=str(e), changed=True, queries=queries)`
(line 262) — the accumulated `query_results` list is dropped there; it is attached only
by the success exit (lines 264-265). The cursor is external (pymssql), so its behaviour
is a parameter: `driver i q` is what executing batch `q` (the `i`-th batch) yields —
either an error message or the sequence of row collections that successive `fetchall()`
calls return (one entry per result set, with the convention that a call past the last
result set returns `[]`). The row type `ρ` is abstract (tuples in default mode,
name-value mappings in dict mode). -/

/-- Outcome of submitting one batch to the external cursor: either the stream of
`fetchall()` row collections, or a driver exception message. -/
inductive ExecOutcome (ρ : Type) where
  | ok (resultSets : List (List ρ))
  | err (msg : List Char)
deriving DecidableEq

/-- Data the module's failure exit receives from the loop: the failing batch's raw text
(`query=query`) and the stringified exception (`error=str(e)`). -/
structure ExecError where
  query : List Char
  error : List Char
deriving DecidableEq

/-- Embedding of the while-loop at lines 256-259: keep appending `fetchall()` results
while they are nonempty; the first empty result ends the loop. Equals the longest prefix
of nonempty row collections of the fetch stream. -/
def fetchAllLoop {ρ : Type} : List (List ρ) → List (List ρ)
  | [] => []
  | [] :: _ => []
  | (r :: rs) :: rest => (r :: rs) :: fetchAllLoop rest

/-- Embedding of the for-loop at lines 253-260 together with the except-branch data:
execute the batches in order starting at index `i`; the first component is either the
first failure (the batch text and error) or the collected per-batch result lists, and
the second component is the list of batches actually submitted to the cursor. -/
def execBatches {ρ : Type} (driver : Nat → List Char → ExecOutcome ρ) :
    Nat → List (List Char) → Except ExecError (List (List (List ρ))) × List (List Char)
  | _, [] => (Except.ok [], [])
  | i, q :: qs =>
    match driver i q with
    | ExecOutcome.err e => (Except.error ⟨q, e⟩, [q])
    | ExecOutcome.ok rss =>
      match execBatches driver (i + 1) qs with
      | (Except.error er, tr) => (Except.error er, q :: tr)
      | (Except.ok rest, tr) => (Except.ok (fetchAllLoop rss :: rest), q :: tr)

/-- Exit taken by `run_module` after the connection is up, with exactly the keys each
exit passes to `exit_json` / `fail_json`: line 239 (database missing: message and the
untouched `changed=False` result), line 249 (check mode: `changed` and `queries`),
line 262 (failure: `msg="query failed"`, failing batch text, error text, `changed` and
`queries`), line 265 (success: `changed`, `queries` and `query_results`). -/
inductive ModuleOutcome (ρ : Type) where
  | dbMissing (msg : List Char) (changed : Bool)
  | checkModeExit (changed : Bool) (queries : List (List Char))
  | failed (msg : List Char) (query : List Char) (error : List Char) (changed : Bool)
      (queries : List (List Char))
  | succeeded (changed : Bool) (queries : List (List Char))
      (query_results : List (List (List ρ)))
deriving DecidableEq

/-- Literal `"query failed"` of line 262. -/
def msgQueryFailed : List Char :=
  ['q', 'u', 'e', 'r', 'y', ' ', 'f', 'a', 'i', 'l', 'e', 'd']

/-- Message `"Database %s does not exist" % db` of line 239. -/
def msgDbMissing (db : List Char) : List Char :=
  ['D', 'a', 't', 'a', 'b', 'a', 's', 'e', ' '] ++ db ++
    [' ', 'd', 'o', 'e', 's', ' ', 'n', 'o', 't', ' ', 'e', 'x', 'i', 's', 't']

/-- Embedding of `run_module` from line 238 on (connection setup and cursor-mode choice
are external). `dbEx` is the boolean the external `db_exists` check returned; Python's
`if db and not db_exists(...)` short-circuits on an empty database name. Returns the
exit taken and the list of batches submitted to the cursor. -/
def runModuleCore {ρ : Type} (dbName : List Char) (dbEx : Bool) (checkMode : Bool)
    (script : List Char) (driver : Nat → List Char → ExecOutcome ρ) :
    ModuleOutcome ρ × List (List Char) :=
  if dbName ≠ [] ∧ dbEx = false then
    (ModuleOutcome.dbMissing (msgDbMissing dbName) false, [])
  else
    let queries := splitGO script
    if checkMode then
      (ModuleOutcome.checkModeExit true queries, [])
    else
      match execBatches driver 0 queries with
      | (Except.error er, tr) =>
        (ModuleOutcome.failed msgQueryFailed er.query er.error true queries, tr)
      | (Except.ok qrs, tr) => (ModuleOutcome.succeeded true queries qrs, tr)

/-- Observer: the `query_results` value an exit carries, if any. Only the success exit
(line 265) passes a `query_results` key; every other exit omits it. -/
def reportedQueryResults {ρ : Type} : ModuleOutcome ρ → Option (List (List (List ρ)))
  | ModuleOutcome.succeeded _ _ qrs => some qrs
  | _ => none

/-- Driver call that succeeded (with whatever fetch stream). -/
def execOk {ρ : Type} (o : ExecOutcome ρ) : Prop := ∃ rss, o = ExecOutcome.ok rss

theorem fetchAllLoop_eq_self {ρ : Type} (rss : List (List ρ))
    (h : ∀ rs ∈ rss, rs ≠ []) : fetchAllLoop rss = rss := by
  induction rss with
  | nil => rfl
  | cons rs rest ih =>
    cases rs with
    | nil => exact absurd rfl (h [] (by simp))
    | cons r rs2 =>
      simp only [fetchAllLoop]
      rw [ih (fun x hx => h x (List.mem_cons_of_mem _ hx))]

theorem execBatches_error_at {ρ : Type} (driver : Nat → List Char → ExecOutcome ρ) :
    ∀ (qs : List (List Char)) (k i : Nat) (hi : i < qs.length) (e : List Char),
    (∀ j (hj : j < i), execOk (driver (k + j) (qs.get ⟨j, Nat.lt_trans hj hi⟩))) →
    driver (k + i) (qs.get ⟨i, hi⟩) = ExecOutcome.err e →
    execBatches driver k qs = (Except.error ⟨qs.get ⟨i, hi⟩, e⟩, qs.take (i + 1)) := by
  intro qs
  induction qs with
  | nil =>
    intro k i hi
    exact absurd hi (by simp)
  | cons q qs ih =>
    intro k i hi e hok herr
    cases i with
    | zero =>
      rw [Nat.add_zero] at herr
      simp only [List.get] at herr
      simp [execBatches, herr, List.get]
    | succ i2 =>
      obtain ⟨rss, hok0⟩ := hok 0 (Nat.succ_pos i2)
      rw [Nat.add_zero] at hok0
      simp only [List.get] at hok0
      have hi2 : i2 < qs.length := Nat.lt_of_succ_lt_succ hi
      have hrec := ih (k + 1) i2 hi2 e ?_ ?_
      · simp only [execBatches, hok0, hrec]
        rfl
      · intro j hj
        have hsh := hok (j + 1) (Nat.succ_lt_succ hj)
        have heq : k + (j + 1) = k + 1 + j := by omega
        rw [heq] at hsh
        exact hsh
      · have heq : k + (i2 + 1) = k + 1 + i2 := by omega
        rw [heq] at herr
        exact herr

theorem execBatches_ok_of_all_ok {ρ : Type} (driver : Nat → List Char → ExecOutcome ρ)
    (rssOf : Nat → List (List ρ)) :
    ∀ (qs : List (List Char)) (k : Nat),
    (∀ j (hj : j < qs.length),
        driver (k + j) (qs.get ⟨j, hj⟩) = ExecOutcome.ok (rssOf (k + j))) →
    execBatches driver k qs =
      (Except.ok ((List.range qs.length).map (fun j => fetchAllLoop (rssOf (k + j)))), qs) := by
  intro qs
  induction qs with
  | nil =>
    intro k h
    simp [execBatches]
  | cons q qs ih =>
    intro k hok
    have hok0 := hok 0 (Nat.succ_pos qs.length)
    rw [Nat.add_zero] at hok0
    simp only [List.get] at hok0
    have hrec := ih (k + 1) ?_
    · simp only [execBatches, hok0, hrec]
      congr 1
      congr 1
      rw [List.length_cons, List.range_succ_eq_map, List.map_cons, List.map_map]
      have hfun : ((fun j => fetchAllLoop (rssOf (k + j))) ∘ Nat.succ) =
          (fun j => fetchAllLoop (rssOf (k + 1 + j))) := by
        funext j
        simp only [Function.comp_apply]
        congr 2
        omega
      rw [hfun]
      simp
    · intro j hj
      have hsh := hok (j + 1) (Nat.succ_lt_succ hj)
      have heq : k + (j + 1) = k + 1 + j := by omega
      rw [heq] at hsh
      exact hsh

/-- Two-batch script whose batches have identical text. -/
def scriptAA : List Char := ['A', '\n', 'G', 'O', '\n', 'A']

/-- Driver whose first batch succeeds and whose second batch raises. -/
def driverFailSecond : Nat → List Char → ExecOutcome Nat :=
  fun i _ => if i = 0 then ExecOutcome.ok [[7]] else ExecOutcome.err ['b', 'o', 'o', 'm']

/-- Driver whose very first batch raises. -/
def driverFailFirst : Nat → List Char → ExecOutcome Nat :=
  fun _ _ => ExecOutcome.err ['b', 'o', 'o', 'm']

/-- C2 counterexample: the failure report does not carry the failing batch's index. On
the script `A\nGO\nA` a run failing at batch index 1 (two batches submitted) and a run
failing at batch index 0 (one batch submitted) produce byte-for-byte identical failure
exits — `fail_json(msg="query failed", query=query, error=..., changed=True,
queries=queries)` at line 262 passes the failing batch's text but no index, and with
duplicate batch texts the index cannot be recovered from the report. -/
theorem failure_report_lacks_index :
    (runModuleCore ['m'] true false scriptAA driverFailSecond).1 =
      (runModuleCore ['m'] true false scriptAA driverFailFirst).1 ∧
    (runModuleCore ['m'] true false scriptAA driverFailSecond).2 = [['A'], ['A']] ∧
    (runModuleCore ['m'] true false scriptAA driverFailFirst).2 = [['A']] := by
  decide

/-- C2 amended: when batch `i` of the split script fails after all earlier batches
executed successfully, execution stops at batch `i` — exactly batches `0..i` are
submitted to the cursor, none later — and the module exits through the failure report
carrying the fixed message `query failed`, the failing batch's raw text, the underlying
error description and the full batch list (but no batch index). -/
theorem exec_stops_at_first_failure {ρ : Type} (driver : Nat → List Char → ExecOutcome ρ)
    (dbName script : List Char) (i : Nat) (e : List Char)
    (hi : i < (splitGO script).length)
    (hok : ∀ j (hj : j < i),
      execOk (driver j ((splitGO script).get ⟨j, Nat.lt_trans hj hi⟩)))
    (herr : driver i ((splitGO script).get ⟨i, hi⟩) = ExecOutcome.err e) :
    runModuleCore dbName true false script driver =
      (ModuleOutcome.failed msgQueryFailed ((splitGO script).get ⟨i, hi⟩) e true
        (splitGO script), (splitGO script).take (i + 1)) := by
  have hex := execBatches_error_at driver (splitGO script) 0 i hi e ?_ ?_
  · simp [runModuleCore, hex]
  · intro j hj
    have := hok j hj
    simpa using this
  · simpa using herr

/-- C2 witness: on the three-batch script `A\nGO\nB\nGO\nC` with a driver that succeeds
on batch 0 and raises on batch 1, the module exits with the failure report naming batch
text `B` and the error, and only batches `A` and `B` were submitted — `C` never ran. -/
theorem exec_stops_at_first_failure_witness :
    runModuleCore ['m'] true false ['A', '\n', 'G', 'O', '\n', 'B', '\n', 'G', 'O', '\n', 'C']
        (fun i _ => if i = 0 then ExecOutcome.ok ([[1]] : List (List Nat))
          else ExecOutcome.err ['x']) =
      (ModuleOutcome.failed msgQueryFailed ['B'] ['x'] true [['A'], ['B'], ['C']],
        [['A'], ['B']]) := by
  have h := exec_stops_at_first_failure
    (fun i _ => if i = 0 then ExecOutcome.ok ([[1]] : List (List Nat))
      else ExecOutcome.err ['x'])
    ['m'] ['A', '\n', 'G', 'O', '\n', 'B', '\n', 'G', 'O', '\n', 'C'] 1 ['x'] (by decide)
    (fun j hj => by
      have hj0 : j = 0 := by omega
      subst hj0
      exact ⟨[[1]], rfl⟩)
    (by decide)
  rw [h]
  decide

/-- C6: a failing run's exit carries no `query_results` value at all, and two runs that
fail at the same batch with the same error produce identical exits even when their
successful earlier batches returned different result sets — the accumulated partial
results are not merged into the error, and only the success exit carries
`query_results`. -/
theorem failure_exit_without_results {ρ : Type}
    (d1 d2 : Nat → List Char → ExecOutcome ρ) (dbName script : List Char) (i : Nat)
    (e : List Char) (hi : i < (splitGO script).length)
    (hok1 : ∀ j (hj : j < i),
      execOk (d1 j ((splitGO script).get ⟨j, Nat.lt_trans hj hi⟩)))
    (hok2 : ∀ j (hj : j < i),
      execOk (d2 j ((splitGO script).get ⟨j, Nat.lt_trans hj hi⟩)))
    (herr1 : d1 i ((splitGO script).get ⟨i, hi⟩) = ExecOutcome.err e)
    (herr2 : d2 i ((splitGO script).get ⟨i, hi⟩) = ExecOutcome.err e) :
    reportedQueryResults (runModuleCore dbName true false script d1).1 = none ∧
    (runModuleCore dbName true false script d1).1 =
      (runModuleCore dbName true false script d2).1 := by
  have hex1 := execBatches_error_at d1 (splitGO script) 0 i hi e ?_ ?_
  · have hex2 := execBatches_error_at d2 (splitGO script) 0 i hi e ?_ ?_
    · constructor
      · simp [runModuleCore, hex1, reportedQueryResults]
      · simp [runModuleCore, hex1, hex2]
    · intro j hj
      have := hok2 j hj
      simpa using this
    · simpa using herr2
  · intro j hj
    have := hok1 j hj
    simpa using this
  · simpa using herr1

/-- C6 witness: two drivers failing at batch 1 of `A\nGO\nB` whose batch 0 returned
different result sets give the same exit, and that exit carries no `query_results`. -/
theorem failure_exit_without_results_witness :
    reportedQueryResults (runModuleCore ['m'] true false ['A', '\n', 'G', 'O', '\n', 'B']
      (fun i _ => if i = 0 then ExecOutcome.ok ([[1], [2]] : List (List Nat))
        else ExecOutcome.err ['x'])).1 = none ∧
    (runModuleCore ['m'] true false ['A', '\n', 'G', 'O', '\n', 'B']
      (fun i _ => if i = 0 then ExecOutcome.ok ([[1], [2]] : List (List Nat))
        else ExecOutcome.err ['x'])).1 =
    (runModuleCore ['m'] true false ['A', '\n', 'G', 'O', '\n', 'B']
      (fun i _ => if i = 0 then ExecOutcome.ok ([[9]] : List (List Nat))
        else ExecOutcome.err ['x'])).1 :=
  failure_exit_without_results
    (fun i _ => if i = 0 then ExecOutcome.ok ([[1], [2]] : List (List Nat))
      else ExecOutcome.err ['x'])
    (fun i _ => if i = 0 then ExecOutcome.ok ([[9]] : List (List Nat))
      else ExecOutcome.err ['x'])
    ['m'] ['A', '\n', 'G', 'O', '\n', 'B'] 1 ['x'] (by decide)
    (fun j hj => by
      have hj0 : j = 0 := by omega
      subst hj0
      exact ⟨[[1], [2]], rfl⟩)
    (fun j hj => by
      have hj0 : j = 0 := by omega
      subst hj0
      exact ⟨[[9]], rfl⟩)
    (by decide) (by decide)

/-- C4 counterexample: the unrestricted claim is false. A batch whose two statements
each produce a result set, the first one empty (fetch stream `[[], [1]]`), is collected
as the empty entry — not as two result sets — because the `while rows:` loop of lines
256-259 ends at the first empty `fetchall()`; the second statement's rows are never
drained. The last conjunct shows the mirror-image truncation at the tail. -/
theorem two_resultsets_claim_fails_on_empty :
    (execBatches (fun _ _ => ExecOutcome.ok ([[], [1]] : List (List Nat))) 0 [['Q']]).1 =
      Except.ok [[]] ∧
    fetchAllLoop ([[], [1]] : List (List Nat)) = [] ∧
    fetchAllLoop ([[1], []] : List (List Nat)) = [[1]] :=
  ⟨rfl, rfl, rfl⟩

/-- C4 amended: when every batch executes successfully and batch `i` produces exactly two
nonempty result sets, the collected `query_results` have one entry per batch and entry
`i` is exactly those two row collections in statement order — both result sets the
batch produced are drained, not only the last one. Result sets are drained only up to
the first empty one: an empty result set ends the drain and drops itself and every
later result set of the batch, so the guarantee needs both to be nonempty. -/
theorem two_resultsets_drained {ρ : Type} (driver : Nat → List Char → ExecOutcome ρ)
    (rssOf : Nat → List (List ρ)) (qs : List (List Char)) (i : Nat) (rs1 rs2 : List ρ)
    (hok : ∀ j (hj : j < qs.length), driver j (qs.get ⟨j, hj⟩) = ExecOutcome.ok (rssOf j))
    (hi : i < qs.length) (hrss : rssOf i = [rs1, rs2]) (h1 : rs1 ≠ []) (h2 : rs2 ≠ []) :
    ∃ qrs, (execBatches driver 0 qs).1 = Except.ok qrs ∧ qrs.length = qs.length ∧
      qrs[i]? = some [rs1, rs2] := by
  have hex := execBatches_ok_of_all_ok driver rssOf qs 0 ?_
  · refine ⟨(List.range qs.length).map (fun j => fetchAllLoop (rssOf (0 + j))), ?_, ?_, ?_⟩
    · rw [hex]
    · simp
    · simp only [Nat.zero_add]
      rw [List.getElem?_map, List.getElem?_range hi]
      have hne : ∀ rs ∈ [rs1, rs2], rs ≠ [] := by
        intro rs hrs
        rcases List.mem_cons.mp hrs with h | h
        · subst h; exact h1
        · rcases List.mem_cons.mp h with h | h
          · subst h; exact h2
          · exact absurd h (List.not_mem_nil rs)
      simp [hrss, fetchAllLoop_eq_self [rs1, rs2] hne]
  · intro j hj
    simpa using hok j hj

/-- C4 witness: a single batch whose driver yields two one-row result sets is collected
as exactly those two result sets in order. -/
theorem two_resultsets_drained_witness :
    ∃ qrs, (execBatches (fun _ _ => ExecOutcome.ok ([[1], [2]] : List (List Nat)))
        0 [['Q']]).1 = Except.ok qrs ∧ qrs.length = [['Q']].length ∧
      qrs[0]? = some [[1], [2]] :=
  two_resultsets_drained (fun _ _ => ExecOutcome.ok [[1], [2]]) (fun _ => [[1], [2]])
    [['Q']] 0 [1] [2] (fun j hj => rfl) (by decide) rfl (by decide) (by decide)

/-- C8: when every batch executes successfully, the collected `query_results` have
exactly one entry per batch, and a batch producing zero result sets (an empty fetch
stream) or zero rows (a single empty row collection) is represented by an empty entry —
never omitted. -/
theorem empty_batch_entry_preserved {ρ : Type} (driver : Nat → List Char → ExecOutcome ρ)
    (rssOf : Nat → List (List ρ)) (qs : List (List Char)) (i : Nat)
    (hok : ∀ j (hj : j < qs.length), driver j (qs.get ⟨j, hj⟩) = ExecOutcome.ok (rssOf j))
    (hi : i < qs.length) (hempty : rssOf i = [] ∨ rssOf i = [[]]) :
    ∃ qrs, (execBatches driver 0 qs).1 = Except.ok qrs ∧ qrs.length = qs.length ∧
      qrs[i]? = some [] := by
  have hex := execBatches_ok_of_all_ok driver rssOf qs 0 ?_
  · refine ⟨(List.range qs.length).map (fun j => fetchAllLoop (rssOf (0 + j))), ?_, ?_, ?_⟩
    · rw [hex]
    · simp
    · simp only [Nat.zero_add]
      rw [List.getElem?_map, List.getElem?_range hi]
      rcases hempty with h | h <;> simp [h, fetchAllLoop]
  · intro j hj
    simpa using hok j hj

/-- C8 witness: two batches, the second producing no rows, are collected as two entries
and the second entry is the empty list. -/
theorem empty_batch_entry_preserved_witness :
    ∃ qrs, (execBatches
        (fun i _ => if i = 0 then ExecOutcome.ok ([[5]] : List (List Nat))
          else ExecOutcome.ok [])
        0 [['Q'], ['R']]).1 = Except.ok qrs ∧ qrs.length = [['Q'], ['R']].length ∧
      qrs[1]? = some [] :=
  empty_batch_entry_preserved
    (fun i _ => if i = 0 then ExecOutcome.ok ([[5]] : List (List Nat))
      else ExecOutcome.ok [])
    (fun i => if i = 0 then [[5]] else []) [['Q'], ['R']] 1
    (fun j hj => by
      have hj2 : j < 2 := hj
      have : j = 0 ∨ j = 1 := by omega
      rcases this with h | h <;> subst h <;> rfl)
    (by decide) (Or.inl rfl)

/-- C7: the empty script splits into exactly one batch, the empty string, and a run in
which that batch yields no result sets exits successfully with `query_results`
containing a single empty batch entry (and that one batch was submitted). -/
theorem empty_script_one_empty_batch {ρ : Type} (driver : Nat → List Char → ExecOutcome ρ)
    (dbName : List Char) (h : driver 0 [] = ExecOutcome.ok []) :
    splitGO [] = [[]] ∧
    runModuleCore dbName true false [] driver =
      (ModuleOutcome.succeeded true [[]] [[]], [[]]) := by
  refine ⟨rfl, ?_⟩
  simp [runModuleCore, splitGO, pySplitF, execBatches, h, fetchAllLoop]

/-- C7 witness: concrete run of the empty script against a driver returning no result
sets. -/
theorem empty_script_one_empty_batch_witness :
    splitGO [] = [[]] ∧
    runModuleCore ['m'] true false []
        (fun _ _ => ExecOutcome.ok ([] : List (List Nat))) =
      (ModuleOutcome.succeeded true [[]] [[]], [[]]) :=
  empty_script_one_empty_batch (fun _ _ => ExecOutcome.ok []) ['m'] rfl

/-- C10: when the target database name is nonempty and the existence check reports it
absent, the module takes the early success exit of line 239 — a message with the
untouched `changed=False` result, no `query_results` — and submits no batch at all to
the cursor, whatever the script, check mode or driver. -/
theorem db_missing_no_execution {ρ : Type} (dbName : List Char) (hdb : dbName ≠ [])
    (checkMode : Bool) (script : List Char) (driver : Nat → List Char → ExecOutcome ρ) :
    runModuleCore dbName false checkMode script driver =
      (ModuleOutcome.dbMissing (msgDbMissing dbName) false, []) ∧
    reportedQueryResults (runModuleCore dbName false checkMode script driver).1 =
      none := by
  constructor
  · simp [runModuleCore, hdb]
  · simp [runModuleCore, hdb, reportedQueryResults]

/-- C10 witness: concrete run against the absent database `master`. -/
theorem db_missing_no_execution_witness :
    runModuleCore ['m', 'a', 's', 't', 'e', 'r'] false false ['S']
        (fun _ _ => ExecOutcome.ok ([[1]] : List (List Nat))) =
      (ModuleOutcome.dbMissing (msgDbMissing ['m', 'a', 's', 't', 'e', 'r']) false, []) ∧
    reportedQueryResults (runModuleCore ['m', 'a', 's', 't', 'e', 'r'] false false ['S']
        (fun _ _ => ExecOutcome.ok ([[1]] : List (List Nat)))).1 = none :=
  db_missing_no_execution ['m', 'a', 's', 't', 'e', 'r'] (by decide) false ['S']
    (fun _ _ => ExecOutcome.ok [[1]])

/-- Error of the spec's error taxonomy for named (dict) output mode: a result set whose
columns cannot be uniquely named; carries the offending column-name list. -/
structure NamedOutputError where
  cols : List (List Char)
deriving DecidableEq

/-- Modelled from the spec: the named-output (dict-mode) row normalizer is missing from
src — lines 241-242 only switch the pymssql cursor to `as_dict=True` and the column
check lives inside that external cursor. Per the spec (§4.2 step 3), a result set's
rows are materialized as name-to-value mappings only when the column names are pairwise
distinct and none is absent; otherwise the whole operation fails with
`NamedOutputError`, the check being made on the result set's column metadata (not on
its rows). -/
def normalizeNamed (V : Type) (cols : List (List Char)) (rows : List (List V)) :
    Except NamedOutputError (List (List (List Char × V))) :=
  if cols.Nodup ∧ [] ∉ cols then
    Except.ok (rows.map (fun r => cols.zip r))
  else
    Except.error ⟨cols⟩

/-- C3: in named output mode a result set whose columns cannot be uniquely named
(duplicate or absent names) fails with `NamedOutputError`, and the failure is decided
from the column metadata alone — the result is the same whatever rows the result set
holds, so no row of it is ever returned (the check is eager per result set, not lazy
per row). -/
theorem named_mode_eager_failure (V : Type) (cols : List (List Char))
    (hbad : ¬(cols.Nodup ∧ [] ∉ cols)) (rows rows2 : List (List V)) :
    normalizeNamed V cols rows = Except.error ⟨cols⟩ ∧
    normalizeNamed V cols rows = normalizeNamed V cols rows2 := by
  simp [normalizeNamed, hbad]

/-- C3 witness: duplicate column name `a` fails identically with rows present and with
no rows at all. -/
theorem named_mode_eager_failure_witness :
    normalizeNamed Nat [['a'], ['a']] [[1, 2], [3, 4]] = Except.error ⟨[['a'], ['a']]⟩ ∧
    normalizeNamed Nat [['a'], ['a']] [[1, 2], [3, 4]] =
      normalizeNamed Nat [['a'], ['a']] [] :=
  named_mode_eager_failure Nat [['a'], ['a']] (by decide) [[1, 2], [3, 4]] []
